import Mathlib

/-!
Verification of the Shikamaru-Protocol allocation engine.

This file gives a shallow embedding, over exact rationals, of the pure
scoring and allocation logic of the repository:

- the investment strategy provider and its helpers
  (generateRecommendations, calculateRiskAdjustedReturn,
  calculateMarketFit, calculatePoolRiskScore, calculateConfidenceScore),
- the confidence label ladders of the two evaluator variants,
- the portfolio diversification metrics of the DeFi evaluator,
- the rebalance check of the smart-contract provider,
- the market sentiment aggregation of the portfolio manager provider.

Modelling conventions, applied throughout:

- JavaScript numbers are modelled as rationals; arithmetic is exact.
- The JavaScript `x || d` default is modelled as `if x = 0 then d else x`
  (for rational inputs, 0 is the only falsy number; missing fields are
  modelled as 0, which `||` treats the same way).
- Rational division by zero yields 0 in Lean, whereas JavaScript yields
  Infinity or NaN.  Every theorem whose conclusion depends on a division
  either carries a hypothesis making the divisor nonzero, or (for
  counterexamples) notes that the JavaScript value also violates the
  claimed inequality at that input, since NaN satisfies no ordering.
- String keyed JavaScript objects used only for accumulation are
  modelled by key lists with deduplication plus per-key filtered sums.
-/

/-- Risk levels, from utils.ts. -/
inductive RiskLevel where
  | LOW
  | MEDIUM
  | HIGH
deriving DecidableEq, Repr

/-- Per-protocol allocation bounds inside a strategy, from the
investment strategy provider.  The source field `type` is rendered
`ptype` because `type` reads poorly as a Lean field name. -/
structure ProtocolConfig where
  name : String
  ptype : String
  maxAllocation : ℚ
  minAllocation : ℚ
deriving DecidableEq, Repr

/-- Cross-protocol limits carried by a strategy configuration. -/
structure CrossProtocolMetrics where
  rebalanceThreshold : ℚ
  maxVolatility : ℚ
  correlationLimit : ℚ
  totalDrawdownLimit : ℚ
deriving DecidableEq, Repr

/-- One risk-strategy configuration (RiskStrategy in the source).  The
`protocols` object is modelled as an association list preserving
declaration order, which is the iteration order of the source loop. -/
structure RiskStrategy where
  maxDrawdown : ℚ
  riskLevel : RiskLevel
  protocols : List (String × ProtocolConfig)
  crossProtocolMetrics : CrossProtocolMetrics
deriving DecidableEq, Repr

/-- One pool record as consumed by the investment strategy provider.
Numeric fields that the source reads with an `||` fallback are plain
rationals here, with 0 standing for a missing field.  The source also
accepts `tvl.usd` / `volume24h.usd` object variants; those collapse to
the same rational field.  `dataQuality` abstracts the output of
calculateDataQuality, whose own body inspects wall-clock time
(Date.now) and the JavaScript object key count, neither of which exists
in a pure embedding; no claim depends on its value. -/
structure Pool where
  protocol : String
  token0 : String
  token1 : String
  token0Address : String
  token1Address : String
  apy : ℚ
  apr : ℚ
  tvl : ℚ
  volume24h : ℚ
  volatility : ℚ
  totalBorrow : ℚ
  totalSupply : ℚ
  fee : ℚ
  tickSpacing : ℚ
  historicalAccuracy : ℚ
  dataQuality : ℚ
deriving DecidableEq, Repr

/-- The slice of the market sentiment object read by the strategy
provider: only the `overall` score is consumed. -/
structure Sentiment where
  overall : ℚ
deriving DecidableEq, Repr

/-- AMM-specific payload attached to Ekubo recommendations. -/
structure PoolData where
  token0Address : String
  token1Address : String
  fee : ℚ
  tickSpacing : ℚ
deriving DecidableEq, Repr

/-- One emitted investment recommendation (InvestmentRecommendation in
the source).  `confidence` is the raw numeric score the provider
attaches; the evaluators map scores to labels separately. -/
structure Recommendation where
  protocol : String
  token : String
  amount : ℚ
  expectedReturn : ℚ
  riskScore : ℚ
  confidence : ℚ
  poolData : Option PoolData
deriving DecidableEq, Repr

/-- SUPPORTED_TOKENS of the strategy provider, as the value list the
source membership test uses. -/
def SUPPORTED_TOKENS : List String := ["ETH", "USDC", "USDT", "STRK"]

/-- STARKNET_PROTOCOLS of utils.ts as (key, display name) pairs. -/
def STARKNET_PROTOCOLS : List (String × String) :=
  [("EKUBO", "Ekubo"), ("ZKLEND", "zkLend")]

/-- Characterwise lowercasing, the model of toLowerCase (all strings in
play are ASCII). -/
def lowerString (s : String) : String := String.mk (s.data.map Char.toLower)

/-- Group key a pool lands under in poolsByProtocol: the first
STARKNET_PROTOCOLS key whose display name matches the pool protocol
case-insensitively, if any. -/
def protocolGroupKey (pool : Pool) : Option String :=
  (STARKNET_PROTOCOLS.find? (fun kv => lowerString kv.2 == lowerString pool.protocol)).map
    (fun kv => kv.1)

/-- The grouping filter of the source: the pool token0 must be a
supported token and the protocol must resolve to a group key. -/
def poolEligible (pool : Pool) : Bool :=
  SUPPORTED_TOKENS.contains pool.token0 && (protocolGroupKey pool).isSome

/-- Pools matched to one strategy protocol key: the source looks up the
poolsByProtocol entry whose key equals the config key
case-insensitively (the literal-key fallback of the source can only hit
when this match already succeeded, so it adds nothing).  Order of the
original pool list is preserved, as JavaScript push order is. -/
def matchingPools (pools : List Pool) (configKey : String) : List Pool :=
  pools.filter (fun pool =>
    poolEligible pool &&
      ((protocolGroupKey pool).map lowerString == some (lowerString configKey)))

/-- calculateRiskAdjustedReturn from the investment strategy provider,
line for line.  Each `||` default fires exactly on the value 0.  The
`if (!config)` guard of the source cannot fire here because the config
argument is not nullable. -/
def calculateRiskAdjustedReturn (pool : Pool) (config : RiskStrategy) : ℚ :=
  let apy := if pool.apy = 0 then (if pool.apr = 0 then 0 else pool.apr) else pool.apy
  let volume := pool.volume24h
  let tvl := if pool.tvl = 0 then 1 else pool.tvl
  let volatility := volume / tvl
  let sharpe := (apy - 0.02) / (if volatility = 0 then 0.1 else volatility)
  let estimatedDrawdown := min volatility 0.3
  let drawdownPenalty :=
    max 0 (estimatedDrawdown - (if config.maxDrawdown = 0 then 0.15 else config.maxDrawdown))
  max 0 (sharpe * (1 - drawdownPenalty))

/-- calculateMarketFit from the investment strategy provider.  In the
bearish branch the source computes 1 / volatility with no zero guard;
at volatility = 0 JavaScript produces Infinity while this model yields
0, so theorems touching that branch avoid volatility = 0. -/
def calculateMarketFit (pool : Pool) (sentiment : Sentiment) : ℚ :=
  let sentimentAlignment := if 0 < sentiment.overall then pool.apy else 1 / pool.volatility
  let volumeScore := min (pool.volume24h / 1000000) 1
  let tvlScore := min (pool.tvl / 10000000) 1
  sentimentAlignment * 0.4 + volumeScore * 0.3 + tvlScore * 0.3

/-- calculatePoolRiskScore from the investment strategy provider.  The
utilization term divides with no zero guard; counterexamples below keep
totalSupply nonzero so the model and JavaScript agree. -/
def calculatePoolRiskScore (pool : Pool) : ℚ :=
  let utilizationRisk := pool.totalBorrow / pool.totalSupply
  let volatilityRisk := min (pool.volatility / 100) 1
  let tvlRisk := max 0 (1 - pool.tvl / 10000000)
  utilizationRisk * 0.4 + volatilityRisk * 0.3 + tvlRisk * 0.3

/-- calculateConfidenceScore from the investment strategy provider; the
data-quality term is the abstracted pool field (see Pool). -/
def calculateConfidenceScore (pool : Pool) (sentiment : Sentiment) : ℚ :=
  let marketAlignment := 0.5 + sentiment.overall * 0.5
  let dataQuality := pool.dataQuality
  let historicalAccuracy := if pool.historicalAccuracy = 0 then 0.5 else pool.historicalAccuracy
  marketAlignment * 0.4 + dataQuality * 0.3 + historicalAccuracy * 0.3

/-- The descending sort by risk-adjusted return the source applies to
each protocol group.  Insertion sort is stable, like the ES2019
comparator sort of the source. -/
def sortedByRiskAdjusted (config : RiskStrategy) (pools : List Pool) : List Pool :=
  List.insertionSort
    (fun a b => calculateRiskAdjustedReturn b config ≤ calculateRiskAdjustedReturn a config) pools

/-- Builds the recommendation object for one selected pool, exactly as
the push sites of the source do: the AMM branch is keyed on the pool
protocol being the literal string Ekubo. -/
def mkRecommendation (pool : Pool) (sentiment : Sentiment)
    (amount : ℚ) : Recommendation :=
  if pool.protocol = "Ekubo" then
    { protocol := pool.protocol
      token := pool.token0 ++ "/" ++ pool.token1
      amount := amount
      expectedReturn := pool.apy
      riskScore := calculatePoolRiskScore pool
      confidence := calculateConfidenceScore pool sentiment
      poolData := some { token0Address := pool.token0Address
                         token1Address := pool.token1Address
                         fee := pool.fee
                         tickSpacing := pool.tickSpacing } }
  else
    { protocol := pool.protocol
      token := pool.token0
      amount := amount
      expectedReturn := pool.apy
      riskScore := calculatePoolRiskScore pool
      confidence := calculateConfidenceScore pool sentiment
      poolData := none }

/-- Pools selected for a protocol entry: the top three of the matching
pools sorted descending by risk-adjusted return. -/
def selectedPoolsFor (config : RiskStrategy) (pools : List Pool) (configKey : String) :
    List Pool :=
  (sortedByRiskAdjusted config (matchingPools pools configKey)).take 3

/-- Total risk-adjusted return over the selected pools of one protocol
entry (the weight denominator of the source). -/
def totalRiskAdjustedFor (config : RiskStrategy) (pools : List Pool) (configKey : String) : ℚ :=
  ((selectedPoolsFor config pools configKey).map
    (fun p => calculateRiskAdjustedReturn p config)).sum

/-- The allocation fraction the source computes for one protocol entry:
minimum allocation plus the market-fit bonus of the top-ranked pool,
clamped above by the maximum allocation. -/
def protocolAllocationFor (config : RiskStrategy) (pools : List Pool) (sentiment : Sentiment)
    (entry : String × ProtocolConfig) : ℚ :=
  let minAllocation := entry.2.minAllocation / 100
  let maxAllocation := entry.2.maxAllocation / 100
  let topFit :=
    match sortedByRiskAdjusted config (matchingPools pools entry.1) with
    | [] => 0
    | p :: _ => calculateMarketFit p sentiment
  min maxAllocation (minAllocation + topFit * (maxAllocation - minAllocation))

/-- The per-protocol body of generateRecommendations: skip the entry if
no pools match, otherwise emit one recommendation per selected pool
with amount proportional to its risk-adjusted return. -/
def protocolRecs (config : RiskStrategy) (pools : List Pool) (sentiment : Sentiment)
    (totalAmount : ℚ) (entry : String × ProtocolConfig) : List Recommendation :=
  if (matchingPools pools entry.1).isEmpty then []
  else
    let protocolAmount := totalAmount * protocolAllocationFor config pools sentiment entry
    let totalRAR := totalRiskAdjustedFor config pools entry.1
    (selectedPoolsFor config pools entry.1).map (fun pool =>
      mkRecommendation pool sentiment
        (protocolAmount * (calculateRiskAdjustedReturn pool config / totalRAR)))

/-- generateRecommendations from the investment strategy provider:
iterate the strategy protocol entries in declaration order and collect
the per-entry recommendations. -/
def generateRecommendations (config : RiskStrategy) (pools : List Pool)
    (sentiment : Sentiment) (totalAmount : ℚ) : List Recommendation :=
  config.protocols.flatMap (protocolRecs config pools sentiment totalAmount)

/-- The LOW entry of STRATEGY_CONFIGS. -/
def lowStrategy : RiskStrategy :=
  { maxDrawdown := 0.05
    riskLevel := RiskLevel.LOW
    protocols :=
      [("zkLend", { name := "zkLend", ptype := "LENDING", maxAllocation := 80, minAllocation := 60 }),
       ("ekubo", { name := "Ekubo", ptype := "AMM", maxAllocation := 20, minAllocation := 10 })]
    crossProtocolMetrics :=
      { rebalanceThreshold := 5, maxVolatility := 12, correlationLimit := 0.4,
        totalDrawdownLimit := 8 } }

/-- The MEDIUM entry of STRATEGY_CONFIGS. -/
def mediumStrategy : RiskStrategy :=
  { maxDrawdown := 0.15
    riskLevel := RiskLevel.MEDIUM
    protocols :=
      [("zkLend", { name := "zkLend", ptype := "LENDING", maxAllocation := 65, minAllocation := 45 }),
       ("ekubo", { name := "Ekubo", ptype := "AMM", maxAllocation := 35, minAllocation := 25 })]
    crossProtocolMetrics :=
      { rebalanceThreshold := 8, maxVolatility := 20, correlationLimit := 0.6,
        totalDrawdownLimit := 15 } }

/-- The HIGH entry of STRATEGY_CONFIGS. -/
def highStrategy : RiskStrategy :=
  { maxDrawdown := 0.30
    riskLevel := RiskLevel.HIGH
    protocols :=
      [("zkLend", { name := "zkLend", ptype := "LENDING", maxAllocation := 45, minAllocation := 25 }),
       ("ekubo", { name := "Ekubo", ptype := "AMM", maxAllocation := 55, minAllocation := 35 })]
    crossProtocolMetrics :=
      { rebalanceThreshold := 10, maxVolatility := 30, correlationLimit := 0.8,
        totalDrawdownLimit := 25 } }

/-- STRATEGY_CONFIGS as a total map on risk levels. -/
def STRATEGY_CONFIGS : RiskLevel → RiskStrategy
  | RiskLevel.LOW => lowStrategy
  | RiskLevel.MEDIUM => mediumStrategy
  | RiskLevel.HIGH => highStrategy

/-- The recommendation-producing core of investmentStrategyProvider:
with no strategy config for the risk level it returns the empty list,
otherwise it runs generateRecommendations.  The provider performs no
validation of totalAmount. -/
def investmentStrategyRecommendations (strategyConfig : Option RiskStrategy)
    (pools : List Pool) (sentiment : Sentiment) (totalAmount : ℚ) : List Recommendation :=
  match strategyConfig with
  | Option.none => []
  | Option.some config => generateRecommendations config pools sentiment totalAmount

/-!
## Helper lemmas for the allocation engine
-/

theorem mkRecommendation_amount (pool : Pool) (s : Sentiment) (a : ℚ) :
    (mkRecommendation pool s a).amount = a := by
  unfold mkRecommendation
  split <;> rfl

theorem sum_map_scaled (config : RiskStrategy) (l : List Pool) (A T : ℚ) :
    (l.map (fun p => A * (calculateRiskAdjustedReturn p config / T))).sum
      = A * (((l.map (fun p => calculateRiskAdjustedReturn p config)).sum) / T) := by
  induction l with
  | nil => simp
  | cons x t ih =>
    simp only [List.map_cons, List.sum_cons, ih]
    ring

/-- The per-protocol emitted amount sum in closed form: zero when no pool
matches, otherwise the protocol amount scaled by T / T where T is the
selected total risk-adjusted return (so zero again at T = 0, where the
source would produce NaN weights). -/
theorem protocolRecs_amount_sum (config : RiskStrategy) (pools : List Pool) (s : Sentiment)
    (tA : ℚ) (e : String × ProtocolConfig) :
    ((protocolRecs config pools s tA e).map (fun r => r.amount)).sum =
      if (matchingPools pools e.1).isEmpty then 0
      else (tA * protocolAllocationFor config pools s e) *
        (totalRiskAdjustedFor config pools e.1 / totalRiskAdjustedFor config pools e.1) := by
  by_cases h : (matchingPools pools e.1).isEmpty
  · simp [protocolRecs, h]
  · simp only [protocolRecs, h, Bool.false_eq_true, if_false, List.map_map]
    have : ((fun r => Recommendation.amount r) ∘ fun pool =>
        mkRecommendation pool s
          (tA * protocolAllocationFor config pools s e *
            (calculateRiskAdjustedReturn pool config / totalRiskAdjustedFor config pools e.1)))
        = fun pool => tA * protocolAllocationFor config pools s e *
            (calculateRiskAdjustedReturn pool config / totalRiskAdjustedFor config pools e.1) := by
      funext pool
      simp [Function.comp, mkRecommendation_amount]
    rw [this, sum_map_scaled]
    rfl

theorem protocolAllocationFor_le (config : RiskStrategy) (pools : List Pool) (s : Sentiment)
    (e : String × ProtocolConfig) :
    protocolAllocationFor config pools s e ≤ e.2.maxAllocation / 100 := by
  simp only [protocolAllocationFor]
  exact min_le_left _ _

theorem protocolRecs_amount_sum_le (config : RiskStrategy) (pools : List Pool) (s : Sentiment)
    (tA : ℚ) (e : String × ProtocolConfig) (hA : 0 ≤ tA) (hmax : 0 ≤ e.2.maxAllocation) :
    ((protocolRecs config pools s tA e).map (fun r => r.amount)).sum
      ≤ tA * (e.2.maxAllocation / 100) := by
  have hrhs : 0 ≤ tA * (e.2.maxAllocation / 100) :=
    mul_nonneg hA (div_nonneg hmax (by norm_num))
  rw [protocolRecs_amount_sum]
  by_cases h : (matchingPools pools e.1).isEmpty
  · simpa [h] using hrhs
  · simp only [h, Bool.false_eq_true, if_false]
    rcases eq_or_ne (totalRiskAdjustedFor config pools e.1) 0 with hT | hT
    · simpa [hT] using hrhs
    · rw [div_self hT, mul_one]
      exact mul_le_mul_of_nonneg_left (protocolAllocationFor_le config pools s e) hA

theorem protocolAllocationFor_ge (config : RiskStrategy) (pools : List Pool) (s : Sentiment)
    (e : String × ProtocolConfig) (hmm : e.2.minAllocation ≤ e.2.maxAllocation)
    (hne : matchingPools pools e.1 ≠ [])
    (hfit : ∀ p ∈ matchingPools pools e.1, 0 ≤ calculateMarketFit p s) :
    e.2.minAllocation / 100 ≤ protocolAllocationFor config pools s e := by
  have hdiv : e.2.minAllocation / 100 ≤ e.2.maxAllocation / 100 := by
    linarith
  simp only [protocolAllocationFor]
  apply le_min hdiv
  rcases hsort : sortedByRiskAdjusted config (matchingPools pools e.1) with _ | ⟨p, rest⟩
  · exfalso
    apply hne
    have hlen := congrArg List.length hsort
    simp only [sortedByRiskAdjusted, List.length_insertionSort, List.length_nil] at hlen
    exact List.length_eq_zero.mp hlen
  · have hpmem : p ∈ matchingPools pools e.1 := by
      have : p ∈ sortedByRiskAdjusted config (matchingPools pools e.1) := by
        rw [hsort]; exact List.mem_cons_self p rest
      simpa [sortedByRiskAdjusted, List.mem_insertionSort] using this
    have htop : 0 ≤ calculateMarketFit p s := hfit p hpmem
    have hbonus : 0 ≤ calculateMarketFit p s * (e.2.maxAllocation / 100 - e.2.minAllocation / 100) :=
      mul_nonneg htop (sub_nonneg.mpr hdiv)
    linarith

theorem protocolRecs_amount_sum_ge (config : RiskStrategy) (pools : List Pool) (s : Sentiment)
    (tA : ℚ) (e : String × ProtocolConfig) (hA : 0 ≤ tA)
    (hmm : e.2.minAllocation ≤ e.2.maxAllocation)
    (hne : matchingPools pools e.1 ≠ [])
    (hT : totalRiskAdjustedFor config pools e.1 ≠ 0)
    (hfit : ∀ p ∈ matchingPools pools e.1, 0 ≤ calculateMarketFit p s) :
    tA * (e.2.minAllocation / 100)
      ≤ ((protocolRecs config pools s tA e).map (fun r => r.amount)).sum := by
  rw [protocolRecs_amount_sum]
  have hE : (matchingPools pools e.1).isEmpty = false := by
    rcases hc : matchingPools pools e.1 with _ | _
    · exact absurd hc hne
    · rfl
  rw [hE]
  simp only [Bool.false_eq_true, if_false]
  rw [div_self hT, mul_one]
  exact mul_le_mul_of_nonneg_left (protocolAllocationFor_ge config pools s e hmm hne hfit) hA

/-!
## Concrete example inputs used by witnesses and counterexamples
-/

/-- A healthy zkLend pool: high yield, deep liquidity, no volume. -/
def examplePoolHighYield : Pool :=
  { protocol := "zkLend", token0 := "ETH", token1 := "", token0Address := "", token1Address := ""
    apy := 10, apr := 0, tvl := 10000000, volume24h := 0, volatility := 0
    totalBorrow := 0, totalSupply := 1, fee := 0, tickSpacing := 0
    historicalAccuracy := 0, dataQuality := 0 }

/-- An Ekubo pool with the same numbers and both pair tokens set. -/
def examplePoolEkubo : Pool :=
  { protocol := "Ekubo", token0 := "ETH", token1 := "USDC", token0Address := "0xa",
    token1Address := "0xb"
    apy := 10, apr := 0, tvl := 10000000, volume24h := 0, volatility := 0
    totalBorrow := 0, totalSupply := 1, fee := 5, tickSpacing := 10
    historicalAccuracy := 0, dataQuality := 0 }

/-- A zkLend pool whose yield equals the risk-free constant, so its
risk-adjusted return is exactly zero. -/
def examplePoolZeroReturn : Pool :=
  { protocol := "zkLend", token0 := "ETH", token1 := "", token0Address := "", token1Address := ""
    apy := 0.02, apr := 0, tvl := 1000000, volume24h := 0, volatility := 0
    totalBorrow := 0, totalSupply := 1, fee := 0, tickSpacing := 0
    historicalAccuracy := 0, dataQuality := 0 }

/-- A mildly bullish market sentiment. -/
def exampleBullish : Sentiment := { overall := 0.5 }

/-!
## C1
-/

/-- C1 (amended): for a nonnegative total amount and a protocol entry
with nonnegative maximum allocation, the amounts emitted for that entry
sum to at most totalAmount * maxAllocation / 100; and they sum to at
least totalAmount * minAllocation / 100 provided additionally that
minAllocation ≤ maxAllocation, some pool matches the entry, the
selected pools carry nonzero total risk-adjusted return, and every
matching pool has nonnegative market fit.  The extra provisos are
forced: with all selected risk-adjusted returns zero the source assigns
NaN (here zero) weights and the minimum bound fails, as
claim_C1_counterexample shows. -/
theorem claim_C1_protocol_allocation_bounds (config : RiskStrategy) (pools : List Pool)
    (s : Sentiment) (tA : ℚ) (e : String × ProtocolConfig)
    (hA : 0 ≤ tA) (hmax : 0 ≤ e.2.maxAllocation) :
    ((protocolRecs config pools s tA e).map (fun r => r.amount)).sum
        ≤ tA * (e.2.maxAllocation / 100) ∧
      (e.2.minAllocation ≤ e.2.maxAllocation →
        matchingPools pools e.1 ≠ [] →
        totalRiskAdjustedFor config pools e.1 ≠ 0 →
        (∀ p ∈ matchingPools pools e.1, 0 ≤ calculateMarketFit p s) →
        tA * (e.2.minAllocation / 100)
          ≤ ((protocolRecs config pools s tA e).map (fun r => r.amount)).sum) := by
  constructor
  · exact protocolRecs_amount_sum_le config pools s tA e hA hmax
  · intro hmm hne hT hfit
    exact protocolRecs_amount_sum_ge config pools s tA e hA hmm hne hT hfit

/-- C1 witness: at the healthy zkLend pool under the LOW strategy the
zkLend protocol total lies between 600 and 800 out of 1000. -/
theorem claim_C1_witness :
    1000 * ((60 : ℚ) / 100)
        ≤ ((protocolRecs lowStrategy [examplePoolHighYield] exampleBullish 1000
            ("zkLend", ⟨"zkLend", "LENDING", 80, 60⟩)).map (fun r => r.amount)).sum ∧
      ((protocolRecs lowStrategy [examplePoolHighYield] exampleBullish 1000
          ("zkLend", ⟨"zkLend", "LENDING", 80, 60⟩)).map (fun r => r.amount)).sum
        ≤ 1000 * ((80 : ℚ) / 100) := by
  have hmatch : matchingPools [examplePoolHighYield] "zkLend" = [examplePoolHighYield] := rfl
  have hsel : selectedPoolsFor lowStrategy [examplePoolHighYield] "zkLend"
      = [examplePoolHighYield] := rfl
  have hRAR : calculateRiskAdjustedReturn examplePoolHighYield lowStrategy = 499 / 5 := by
    norm_num [calculateRiskAdjustedReturn, examplePoolHighYield, lowStrategy]
  have hT : totalRiskAdjustedFor lowStrategy [examplePoolHighYield] "zkLend" ≠ 0 := by
    simp only [totalRiskAdjustedFor, hsel, List.map_cons, List.map_nil, List.sum_cons,
      List.sum_nil, hRAR]
    norm_num
  have hne : matchingPools [examplePoolHighYield] "zkLend" ≠ [] := by
    rw [hmatch]
    exact List.cons_ne_nil _ _
  have hfit : ∀ p ∈ matchingPools [examplePoolHighYield] "zkLend",
      0 ≤ calculateMarketFit p exampleBullish := by
    rw [hmatch]
    intro p hp
    rw [List.mem_singleton] at hp
    subst hp
    norm_num [calculateMarketFit, examplePoolHighYield, exampleBullish]
  have hthm := claim_C1_protocol_allocation_bounds lowStrategy [examplePoolHighYield]
    exampleBullish 1000 ("zkLend", ⟨"zkLend", "LENDING", 80, 60⟩) (by norm_num) (by norm_num)
  exact ⟨hthm.2 (by norm_num) hne hT hfit, hthm.1⟩

/-- C1 counterexample: with a single selected zkLend pool whose yield
equals the risk-free rate, the risk-adjusted return and hence the
weight denominator are zero; a pool is selected and one recommendation
is emitted, yet the zkLend total is 0, below 1000 * 60 / 100 = 600 (in
JavaScript the emitted amount is NaN, which also fails the bound). -/
theorem claim_C1_counterexample :
    selectedPoolsFor lowStrategy [examplePoolZeroReturn] "zkLend" = [examplePoolZeroReturn] ∧
      (generateRecommendations lowStrategy [examplePoolZeroReturn] exampleBullish 1000).map
          (fun r => (r.protocol, r.amount)) = [("zkLend", 0)] ∧
      ¬ (1000 * ((60 : ℚ) / 100)
          ≤ ((generateRecommendations lowStrategy [examplePoolZeroReturn] exampleBullish
              1000).map (fun r => r.amount)).sum) := by
  have hmatch : matchingPools [examplePoolZeroReturn] "zkLend" = [examplePoolZeroReturn] := rfl
  have hsel : selectedPoolsFor lowStrategy [examplePoolZeroReturn] "zkLend"
      = [examplePoolZeroReturn] := rfl
  have hRARzero : calculateRiskAdjustedReturn examplePoolZeroReturn lowStrategy = 0 := by
    norm_num [calculateRiskAdjustedReturn, examplePoolZeroReturn, lowStrategy]
  have hzkT : totalRiskAdjustedFor lowStrategy [examplePoolZeroReturn] "zkLend" = 0 := by
    simp only [totalRiskAdjustedFor, hsel, List.map_cons, List.map_nil, List.sum_cons,
      List.sum_nil, hRARzero]
    norm_num
  have hek : protocolRecs lowStrategy [examplePoolZeroReturn] exampleBullish 1000
      ("ekubo", ⟨"Ekubo", "AMM", 20, 10⟩) = [] := rfl
  have hzk : protocolRecs lowStrategy [examplePoolZeroReturn] exampleBullish 1000
      ("zkLend", ⟨"zkLend", "LENDING", 80, 60⟩)
      = [mkRecommendation examplePoolZeroReturn exampleBullish 0] := by
    simp only [protocolRecs, hmatch, hsel, hzkT, List.isEmpty_cons, Bool.false_eq_true,
      if_false, List.map_cons, List.map_nil, div_zero, mul_zero]
  have hgen : generateRecommendations lowStrategy [examplePoolZeroReturn] exampleBullish 1000
      = [mkRecommendation examplePoolZeroReturn exampleBullish 0] := by
    have hprot : lowStrategy.protocols
        = [("zkLend", ⟨"zkLend", "LENDING", 80, 60⟩), ("ekubo", ⟨"Ekubo", "AMM", 20, 10⟩)] := rfl
    simp only [generateRecommendations, hprot, List.flatMap_cons, List.flatMap_nil]
    rw [hzk, hek]
    rfl
  refine ⟨hsel, ?_, ?_⟩
  · rw [hgen]
    simp [mkRecommendation, examplePoolZeroReturn]
  · rw [hgen]
    simp only [List.map_cons, List.map_nil, mkRecommendation_amount, List.sum_cons,
      List.sum_nil]
    norm_num

/-!
## C2
-/

theorem sum_amounts_flatMap (config : RiskStrategy) (pools : List Pool) (s : Sentiment)
    (tA : ℚ) (l : List (String × ProtocolConfig)) :
    ((l.flatMap (protocolRecs config pools s tA)).map (fun r => r.amount)).sum
      = (l.map (fun e => ((protocolRecs config pools s tA e).map (fun r => r.amount)).sum)).sum := by
  induction l with
  | nil => rfl
  | cons x t ih => simp [List.flatMap_cons, ih]

/-- C2 (amended): the grand emitted total is bounded by totalAmount
whenever the per-protocol maximum allocations are nonnegative and sum
to at most 100 percent, which the three shipped STRATEGY_CONFIGS
satisfy with equality.  The claimed per-protocol validity alone
(0 ≤ min ≤ max ≤ 100 for each protocol) does not bound the sum of the
maxima, and claim_C2_counterexample exhibits an overshoot for such a
config. -/
theorem claim_C2_total_within_amount (config : RiskStrategy) (pools : List Pool)
    (s : Sentiment) (tA : ℚ) (hA : 0 ≤ tA)
    (hmax : ∀ e ∈ config.protocols, 0 ≤ e.2.maxAllocation)
    (hsum : (config.protocols.map (fun e => e.2.maxAllocation)).sum ≤ 100) :
    ((generateRecommendations config pools s tA).map (fun r => r.amount)).sum ≤ tA := by
  rw [generateRecommendations, sum_amounts_flatMap]
  have hstep : (config.protocols.map
      (fun e => ((protocolRecs config pools s tA e).map (fun r => r.amount)).sum)).sum
      ≤ (config.protocols.map (fun e => e.2.maxAllocation * (tA / 100))).sum := by
    apply List.sum_le_sum
    intro e he
    have := protocolRecs_amount_sum_le config pools s tA e hA (hmax e he)
    calc ((protocolRecs config pools s tA e).map (fun r => r.amount)).sum
        ≤ tA * (e.2.maxAllocation / 100) := this
      _ = e.2.maxAllocation * (tA / 100) := by ring
  calc (config.protocols.map
      (fun e => ((protocolRecs config pools s tA e).map (fun r => r.amount)).sum)).sum
      ≤ (config.protocols.map (fun e => e.2.maxAllocation * (tA / 100))).sum := hstep
    _ = (config.protocols.map (fun e => e.2.maxAllocation)).sum * (tA / 100) :=
        List.sum_map_mul_right _ _ _
    _ ≤ 100 * (tA / 100) :=
        mul_le_mul_of_nonneg_right hsum (div_nonneg hA (by norm_num))
    _ = tA := by ring

/-- C2 witness: the LOW strategy config over one zkLend and one Ekubo
pool allocates at most the full 1000. -/
theorem claim_C2_witness :
    ((generateRecommendations lowStrategy [examplePoolHighYield, examplePoolEkubo]
        exampleBullish 1000).map (fun r => r.amount)).sum ≤ 1000 := by
  apply claim_C2_total_within_amount lowStrategy [examplePoolHighYield, examplePoolEkubo]
    exampleBullish 1000 (by norm_num)
  · intro e he
    simp only [lowStrategy, List.mem_cons, List.not_mem_nil, or_false] at he
    rcases he with he | he <;> rw [he] <;> norm_num
  · norm_num [lowStrategy]

/-- A zkLend entry pinned at 90 percent, individually valid. -/
def badZkEntry : String × ProtocolConfig := ("zkLend", ⟨"zkLend", "LENDING", 90, 90⟩)

/-- An Ekubo entry pinned at 90 percent, individually valid. -/
def badEkEntry : String × ProtocolConfig := ("ekubo", ⟨"Ekubo", "AMM", 90, 90⟩)

/-- A strategy whose per-protocol bounds each satisfy
0 ≤ min ≤ max ≤ 100 yet whose maxima sum to 180 percent. -/
def overlappingStrategy : RiskStrategy :=
  { maxDrawdown := 0.15
    riskLevel := RiskLevel.MEDIUM
    protocols := [badZkEntry, badEkEntry]
    crossProtocolMetrics :=
      { rebalanceThreshold := 8, maxVolatility := 20, correlationLimit := 0.6,
        totalDrawdownLimit := 15 } }

/-- C2 counterexample: a config that is valid in the claimed
per-protocol sense (each entry has 0 ≤ min ≤ max ≤ 100) emits 90 + 90 =
180 on a nonempty pool set with totalAmount = 100, overshooting the
investable amount. -/
theorem claim_C2_counterexample :
    (0 ≤ badZkEntry.2.minAllocation ∧ badZkEntry.2.minAllocation ≤ badZkEntry.2.maxAllocation
        ∧ badZkEntry.2.maxAllocation ≤ 100) ∧
      (0 ≤ badEkEntry.2.minAllocation ∧ badEkEntry.2.minAllocation ≤ badEkEntry.2.maxAllocation
        ∧ badEkEntry.2.maxAllocation ≤ 100) ∧
      ((generateRecommendations overlappingStrategy [examplePoolHighYield, examplePoolEkubo]
          exampleBullish 100).map (fun r => r.amount)).sum = 180 ∧
      ¬ (((generateRecommendations overlappingStrategy [examplePoolHighYield, examplePoolEkubo]
          exampleBullish 100).map (fun r => r.amount)).sum ≤ 100) := by
  have hmz : matchingPools [examplePoolHighYield, examplePoolEkubo] "zkLend"
      = [examplePoolHighYield] := rfl
  have hme : matchingPools [examplePoolHighYield, examplePoolEkubo] "ekubo"
      = [examplePoolEkubo] := rfl
  have hsortz : sortedByRiskAdjusted overlappingStrategy
      (matchingPools [examplePoolHighYield, examplePoolEkubo] "zkLend")
      = [examplePoolHighYield] := rfl
  have hsorte : sortedByRiskAdjusted overlappingStrategy
      (matchingPools [examplePoolHighYield, examplePoolEkubo] "ekubo")
      = [examplePoolEkubo] := rfl
  have hselz : selectedPoolsFor overlappingStrategy [examplePoolHighYield, examplePoolEkubo]
      "zkLend" = [examplePoolHighYield] := rfl
  have hsele : selectedPoolsFor overlappingStrategy [examplePoolHighYield, examplePoolEkubo]
      "ekubo" = [examplePoolEkubo] := rfl
  have hRARz : calculateRiskAdjustedReturn examplePoolHighYield overlappingStrategy
      = 499 / 5 := by
    norm_num [calculateRiskAdjustedReturn, examplePoolHighYield, overlappingStrategy]
  have hRARe : calculateRiskAdjustedReturn examplePoolEkubo overlappingStrategy = 499 / 5 := by
    norm_num [calculateRiskAdjustedReturn, examplePoolEkubo, overlappingStrategy]
  have hTz : totalRiskAdjustedFor overlappingStrategy
      [examplePoolHighYield, examplePoolEkubo] "zkLend" = 499 / 5 := by
    simp only [totalRiskAdjustedFor, hselz, List.map_cons, List.map_nil, List.sum_cons,
      List.sum_nil, hRARz]
    norm_num
  have hTe : totalRiskAdjustedFor overlappingStrategy
      [examplePoolHighYield, examplePoolEkubo] "ekubo" = 499 / 5 := by
    simp only [totalRiskAdjustedFor, hsele, List.map_cons, List.map_nil, List.sum_cons,
      List.sum_nil, hRARe]
    norm_num
  have hallocz : protocolAllocationFor overlappingStrategy
      [examplePoolHighYield, examplePoolEkubo] exampleBullish badZkEntry = 9 / 10 := by
    simp only [protocolAllocationFor, badZkEntry, hsortz]
    norm_num
  have halloce : protocolAllocationFor overlappingStrategy
      [examplePoolHighYield, examplePoolEkubo] exampleBullish badEkEntry = 9 / 10 := by
    simp only [protocolAllocationFor, badEkEntry, hsorte]
    norm_num
  have hsumz : ((protocolRecs overlappingStrategy [examplePoolHighYield, examplePoolEkubo]
      exampleBullish 100 badZkEntry).map (fun r => r.amount)).sum = 90 := by
    rw [protocolRecs_amount_sum]
    simp only [badZkEntry, hmz, List.isEmpty_cons, Bool.false_eq_true, if_false]
    simp only [badZkEntry] at hallocz
    rw [hallocz, hTz]
    norm_num
  have hsume : ((protocolRecs overlappingStrategy [examplePoolHighYield, examplePoolEkubo]
      exampleBullish 100 badEkEntry).map (fun r => r.amount)).sum = 90 := by
    rw [protocolRecs_amount_sum]
    simp only [badEkEntry, hme, List.isEmpty_cons, Bool.false_eq_true, if_false]
    simp only [badEkEntry] at halloce
    rw [halloce, hTe]
    norm_num
  have hprot : overlappingStrategy.protocols = [badZkEntry, badEkEntry] := rfl
  have hgensum : ((generateRecommendations overlappingStrategy
      [examplePoolHighYield, examplePoolEkubo] exampleBullish 100).map
        (fun r => r.amount)).sum = 180 := by
    rw [show generateRecommendations overlappingStrategy
        [examplePoolHighYield, examplePoolEkubo] exampleBullish 100
        = overlappingStrategy.protocols.flatMap
            (protocolRecs overlappingStrategy [examplePoolHighYield, examplePoolEkubo]
              exampleBullish 100) from rfl]
    rw [sum_amounts_flatMap, hprot]
    simp only [List.map_cons, List.map_nil, List.sum_cons, List.sum_nil, hsumz, hsume]
    norm_num
  refine ⟨?_, ?_, hgensum, ?_⟩
  · norm_num [badZkEntry]
  · norm_num [badEkEntry]
  · rw [hgensum]
    norm_num

/-!
## C3
-/

/-- The risk-adjusted-return formula exactly as the claim words it,
with hard max floors: volatility = volume24h / max(tvl, 1) and a
divisor max(volatility, 0.1), and the config maxDrawdown used as is.
This is the refinement target to compare against the source function. -/
def specRiskAdjustedReturn (pool : Pool) (config : RiskStrategy) : ℚ :=
  let volatility := pool.volume24h / max pool.tvl 1
  let sharpe := (pool.apy - 0.02) / max volatility 0.1
  let estimatedDrawdown := min volatility 0.3
  let drawdownPenalty := max 0 (estimatedDrawdown - config.maxDrawdown)
  max 0 (sharpe * (1 - drawdownPenalty))

/-- The formula as the code actually computes it, in the amended
wording: apy falls back to apr and then 0 when zero; tvl is replaced by
1 exactly when it is 0 (not floored at 1); the Sharpe divisor is the
volatility itself, with 0.1 used exactly when the volatility is 0 (not
a floor); maxDrawdown is replaced by 0.15 exactly when it is 0. -/
def amendedRiskAdjustedReturn (pool : Pool) (config : RiskStrategy) : ℚ :=
  let apy := if pool.apy = 0 then (if pool.apr = 0 then 0 else pool.apr) else pool.apy
  let tvl := if pool.tvl = 0 then 1 else pool.tvl
  let volatility := pool.volume24h / tvl
  let divisor := if volatility = 0 then 0.1 else volatility
  let sharpe := (apy - 0.02) / divisor
  let estimatedDrawdown := min volatility 0.3
  let maxDD := if config.maxDrawdown = 0 then 0.15 else config.maxDrawdown
  let drawdownPenalty := max 0 (estimatedDrawdown - maxDD)
  max 0 (sharpe * (1 - drawdownPenalty))

/-- C3 (amended): calculateRiskAdjustedReturn computes the
zero-fallback formula, not the max-floor formula of the claim; the two
agree on the region where the fallbacks cannot fire, namely apy nonzero,
tvl at least 1, volume/tvl at least the 0.1 divisor floor, and a nonzero
configured maxDrawdown. -/
theorem claim_C3_riskAdjusted_formula :
    (∀ (pool : Pool) (config : RiskStrategy),
        calculateRiskAdjustedReturn pool config = amendedRiskAdjustedReturn pool config) ∧
      (∀ (pool : Pool) (config : RiskStrategy),
        pool.apy ≠ 0 → 1 ≤ pool.tvl → (1 : ℚ) / 10 ≤ pool.volume24h / pool.tvl →
        config.maxDrawdown ≠ 0 →
        calculateRiskAdjustedReturn pool config = specRiskAdjustedReturn pool config) := by
  constructor
  · intro pool config
    rfl
  · intro pool config hapy htvl hvol hdd
    have htvl0 : pool.tvl ≠ 0 := by
      intro h
      rw [h] at htvl
      norm_num at htvl
    have hvol0 : pool.volume24h / pool.tvl ≠ 0 := by
      intro h
      rw [h] at hvol
      norm_num at hvol
    have hvolfloor : (0.1 : ℚ) ≤ pool.volume24h / pool.tvl := by
      calc (0.1 : ℚ) = 1 / 10 := by norm_num
        _ ≤ pool.volume24h / pool.tvl := hvol
    simp only [calculateRiskAdjustedReturn, specRiskAdjustedReturn,
      if_neg hapy, if_neg htvl0, if_neg hvol0, if_neg hdd,
      max_eq_left htvl, max_eq_left hvolfloor]

/-- A pool on which the fallbacks and floors of C3 disagree: tvl = 2
and volume = 0.1 give volatility 0.05, so the claimed 0.1 floor would
halve the Sharpe ratio relative to the code. -/
def examplePoolLowVol : Pool :=
  { protocol := "zkLend", token0 := "ETH", token1 := "", token0Address := "", token1Address := ""
    apy := 1, apr := 0, tvl := 2, volume24h := 0.1, volatility := 0
    totalBorrow := 0, totalSupply := 1, fee := 0, tickSpacing := 0
    historicalAccuracy := 0, dataQuality := 0 }

/-- C3 counterexample: at volatility 0.05 the code divides by 0.05 and
returns 19.6 while the claimed max(volatility, 0.1) floor gives 9.8. -/
theorem claim_C3_counterexample :
    calculateRiskAdjustedReturn examplePoolLowVol mediumStrategy = 98 / 5 ∧
      specRiskAdjustedReturn examplePoolLowVol mediumStrategy = 49 / 5 ∧
      calculateRiskAdjustedReturn examplePoolLowVol mediumStrategy
        ≠ specRiskAdjustedReturn examplePoolLowVol mediumStrategy := by
  have h1 : calculateRiskAdjustedReturn examplePoolLowVol mediumStrategy = 98 / 5 := by
    norm_num [calculateRiskAdjustedReturn, examplePoolLowVol, mediumStrategy]
  have h2 : specRiskAdjustedReturn examplePoolLowVol mediumStrategy = 49 / 5 := by
    norm_num [specRiskAdjustedReturn, examplePoolLowVol, mediumStrategy]
  refine ⟨h1, h2, ?_⟩
  rw [h1, h2]
  norm_num

/-- A pool inside the agreement region of the two formulas. -/
def examplePoolAgreement : Pool :=
  { protocol := "zkLend", token0 := "ETH", token1 := "", token0Address := "", token1Address := ""
    apy := 5, apr := 0, tvl := 100, volume24h := 20, volatility := 0
    totalBorrow := 0, totalSupply := 1, fee := 0, tickSpacing := 0
    historicalAccuracy := 0, dataQuality := 0 }

/-- C3 witness: on a pool with tvl 100 and volume 20 the code formula,
the amended formula and the claimed formula all coincide. -/
theorem claim_C3_witness :
    calculateRiskAdjustedReturn examplePoolAgreement mediumStrategy
        = amendedRiskAdjustedReturn examplePoolAgreement mediumStrategy ∧
      calculateRiskAdjustedReturn examplePoolAgreement mediumStrategy
        = specRiskAdjustedReturn examplePoolAgreement mediumStrategy := by
  constructor
  · exact claim_C3_riskAdjusted_formula.1 examplePoolAgreement mediumStrategy
  · exact claim_C3_riskAdjusted_formula.2 examplePoolAgreement mediumStrategy
      (by norm_num [examplePoolAgreement]) (by norm_num [examplePoolAgreement])
      (by norm_num [examplePoolAgreement]) (by norm_num [mediumStrategy])

/-!
## C6
-/

/-- C6 (amended): calculateRiskAdjustedReturn is never negative for any
input; calculatePoolRiskScore is never negative provided the borrow,
supply and volatility inputs are nonnegative.  Without that proviso the
unclamped utilization and volatility terms go negative, as
claim_C6_counterexample shows. -/
theorem claim_C6_scores_nonnegative (pool : Pool) (config : RiskStrategy)
    (hb : 0 ≤ pool.totalBorrow) (hs : 0 ≤ pool.totalSupply) (hv : 0 ≤ pool.volatility) :
    0 ≤ calculateRiskAdjustedReturn pool config ∧ 0 ≤ calculatePoolRiskScore pool := by
  constructor
  · exact le_max_left 0 _
  · simp only [calculatePoolRiskScore]
    have h1 : 0 ≤ pool.totalBorrow / pool.totalSupply := div_nonneg hb hs
    have h2 : (0 : ℚ) ≤ min (pool.volatility / 100) 1 :=
      le_min (div_nonneg hv (by norm_num)) (by norm_num)
    have h3 : (0 : ℚ) ≤ max 0 (1 - pool.tvl / 10000000) := le_max_left 0 _
    have := add_nonneg (add_nonneg (mul_nonneg h1 (by norm_num : (0:ℚ) ≤ 0.4))
      (mul_nonneg h2 (by norm_num : (0:ℚ) ≤ 0.3))) (mul_nonneg h3 (by norm_num : (0:ℚ) ≤ 0.3))
    linarith

/-- C6 witness: both scores are nonnegative at the healthy zkLend
pool. -/
theorem claim_C6_witness :
    0 ≤ calculateRiskAdjustedReturn examplePoolHighYield lowStrategy
      ∧ 0 ≤ calculatePoolRiskScore examplePoolHighYield :=
  claim_C6_scores_nonnegative examplePoolHighYield lowStrategy
    (by norm_num [examplePoolHighYield]) (by norm_num [examplePoolHighYield])
    (by norm_num [examplePoolHighYield])

/-- A finite pool record with a negative volatility reading. -/
def examplePoolNegativeVol : Pool :=
  { protocol := "zkLend", token0 := "ETH", token1 := "", token0Address := "", token1Address := ""
    apy := 5, apr := 0, tvl := 10000000, volume24h := 0, volatility := -1000
    totalBorrow := 0, totalSupply := 1, fee := 0, tickSpacing := 0
    historicalAccuracy := 0, dataQuality := 0 }

/-- C6 counterexample: at a finite pool with volatility -1000 the
unclamped risk score evaluates to -3, so calculatePoolRiskScore does
return a negative value on finite, non-NaN input. -/
theorem claim_C6_counterexample :
    calculatePoolRiskScore examplePoolNegativeVol = -3
      ∧ ¬ (0 ≤ calculatePoolRiskScore examplePoolNegativeVol) := by
  have h : calculatePoolRiskScore examplePoolNegativeVol = -3 := by
    norm_num [calculatePoolRiskScore, examplePoolNegativeVol, min_def, max_def]
  refine ⟨h, ?_⟩
  rw [h]
  norm_num

/-!
## C4
-/

theorem forall₂_map_of_mem {α β : Type} (P : α → β → Prop) (f : α → β) (l : List α)
    (h : ∀ a ∈ l, P a (f a)) : List.Forall₂ P l (l.map f) := by
  induction l with
  | nil => exact List.Forall₂.nil
  | cons x t ih =>
    simp only [List.map_cons]
    exact List.Forall₂.cons (h x (List.mem_cons_self x t))
      (ih (fun a ha => h a (List.mem_cons_of_mem x ha)))

theorem calculateRiskAdjustedReturn_nonneg (pool : Pool) (config : RiskStrategy) :
    0 ≤ calculateRiskAdjustedReturn pool config :=
  le_max_left 0 _

/-- C4 (amended): when the selected pools carry nonzero total
risk-adjusted return, the engine emits exactly one recommendation per
selected pool, in order; each amount is the protocol amount times the
pool's share of the selected total risk-adjusted return, hence zero for
zero-return pools and positive whenever the protocol amount is
positive and the pool's return is positive (a recommendation is still
emitted, with amount 0, for a zero-weight pool); the pair-labelled
recommendation carrying poolData is keyed on the pool protocol being
the literal string Ekubo, not on the presence of both pair tokens, as
claim_C4_counterexample shows. -/
theorem claim_C4_pool_distribution (config : RiskStrategy) (pools : List Pool) (s : Sentiment)
    (tA : ℚ) (e : String × ProtocolConfig)
    (hT : totalRiskAdjustedFor config pools e.1 ≠ 0) :
    List.Forall₂ (fun pool r =>
        r.amount = tA * protocolAllocationFor config pools s e *
            (calculateRiskAdjustedReturn pool config / totalRiskAdjustedFor config pools e.1)
          ∧ (calculateRiskAdjustedReturn pool config = 0 → r.amount = 0)
          ∧ (0 < tA * protocolAllocationFor config pools s e →
              0 < calculateRiskAdjustedReturn pool config → 0 < r.amount)
          ∧ (pool.protocol = "Ekubo" → r.token = pool.token0 ++ "/" ++ pool.token1 ∧
              r.poolData = some ⟨pool.token0Address, pool.token1Address, pool.fee,
                pool.tickSpacing⟩)
          ∧ (pool.protocol ≠ "Ekubo" → r.token = pool.token0 ∧ r.poolData = Option.none))
      (selectedPoolsFor config pools e.1) (protocolRecs config pools s tA e) := by
  have hTnonneg : 0 ≤ totalRiskAdjustedFor config pools e.1 := by
    apply List.sum_nonneg
    intro x hx
    rw [List.mem_map] at hx
    obtain ⟨p, _, hp⟩ := hx
    rw [← hp]
    exact calculateRiskAdjustedReturn_nonneg p config
  have hTpos : 0 < totalRiskAdjustedFor config pools e.1 := lt_of_le_of_ne hTnonneg (Ne.symm hT)
  have hne : (matchingPools pools e.1).isEmpty = false := by
    rcases hc : matchingPools pools e.1 with _ | ⟨p, t⟩
    · exfalso
      apply hT
      simp [totalRiskAdjustedFor, selectedPoolsFor, sortedByRiskAdjusted, hc]
    · rfl
  simp only [protocolRecs, hne, Bool.false_eq_true, if_false]
  apply forall₂_map_of_mem
  intro pool hpool
  refine ⟨mkRecommendation_amount pool s _, ?_, ?_, ?_, ?_⟩
  · intro h0
    rw [mkRecommendation_amount, h0, zero_div, mul_zero]
  · intro hApos hrpos
    rw [mkRecommendation_amount]
    exact mul_pos hApos (div_pos hrpos hTpos)
  · intro hek
    rw [mkRecommendation]
    rw [if_pos hek]
    exact ⟨rfl, rfl⟩
  · intro hek
    rw [mkRecommendation]
    rw [if_neg hek]
    exact ⟨rfl, rfl⟩

/-- C4 witness: the single-pool zkLend selection under the LOW strategy
satisfies the per-pool correspondence. -/
theorem claim_C4_witness :
    List.Forall₂ (fun pool r =>
        r.amount = 1000 * protocolAllocationFor lowStrategy [examplePoolHighYield]
              exampleBullish ("zkLend", ⟨"zkLend", "LENDING", 80, 60⟩) *
            (calculateRiskAdjustedReturn pool lowStrategy /
              totalRiskAdjustedFor lowStrategy [examplePoolHighYield] "zkLend")
          ∧ (calculateRiskAdjustedReturn pool lowStrategy = 0 → r.amount = 0)
          ∧ (0 < 1000 * protocolAllocationFor lowStrategy [examplePoolHighYield]
                exampleBullish ("zkLend", ⟨"zkLend", "LENDING", 80, 60⟩) →
              0 < calculateRiskAdjustedReturn pool lowStrategy → 0 < r.amount)
          ∧ (pool.protocol = "Ekubo" → r.token = pool.token0 ++ "/" ++ pool.token1 ∧
              r.poolData = some ⟨pool.token0Address, pool.token1Address, pool.fee,
                pool.tickSpacing⟩)
          ∧ (pool.protocol ≠ "Ekubo" → r.token = pool.token0 ∧ r.poolData = Option.none))
      (selectedPoolsFor lowStrategy [examplePoolHighYield] "zkLend")
      (protocolRecs lowStrategy [examplePoolHighYield] exampleBullish 1000
        ("zkLend", ⟨"zkLend", "LENDING", 80, 60⟩)) := by
  apply claim_C4_pool_distribution lowStrategy [examplePoolHighYield] exampleBullish 1000
    ("zkLend", ⟨"zkLend", "LENDING", 80, 60⟩)
  have hsel : selectedPoolsFor lowStrategy [examplePoolHighYield] "zkLend"
      = [examplePoolHighYield] := rfl
  have hRAR : calculateRiskAdjustedReturn examplePoolHighYield lowStrategy = 499 / 5 := by
    norm_num [calculateRiskAdjustedReturn, examplePoolHighYield, lowStrategy]
  simp only [totalRiskAdjustedFor, hsel, List.map_cons, List.map_nil, List.sum_cons,
    List.sum_nil, hRAR]
  norm_num

/-- A zkLend pool record carrying both pair tokens. -/
def examplePoolZkPair : Pool :=
  { protocol := "zkLend", token0 := "ETH", token1 := "USDC", token0Address := "0xa",
    token1Address := "0xb"
    apy := 10, apr := 0, tvl := 10000000, volume24h := 0, volatility := 0
    totalBorrow := 0, totalSupply := 1, fee := 5, tickSpacing := 10
    historicalAccuracy := 0, dataQuality := 0 }

/-- C4 counterexample: a pool with both token0 and token1 present (an
AMM-type pool in the wording of the claim) whose protocol string is
not literally Ekubo is emitted with token = token0 and no poolData, so
the AMM emission is keyed on the protocol string, not on the pair
tokens. -/
theorem claim_C4_counterexample :
    examplePoolZkPair.token1 = "USDC" ∧
      (generateRecommendations lowStrategy [examplePoolZkPair] exampleBullish 1000).map
          (fun r => (r.token, r.poolData)) = [(("ETH" : String), (Option.none : Option PoolData))] ∧
      ("ETH" : String) ≠ examplePoolZkPair.token0 ++ "/" ++ examplePoolZkPair.token1 := by
  have hmz : matchingPools [examplePoolZkPair] "zkLend" = [examplePoolZkPair] := rfl
  have hme : matchingPools [examplePoolZkPair] "ekubo" = [] := rfl
  have hsel : selectedPoolsFor lowStrategy [examplePoolZkPair] "zkLend"
      = [examplePoolZkPair] := rfl
  have hprot : lowStrategy.protocols
      = [("zkLend", ⟨"zkLend", "LENDING", 80, 60⟩), ("ekubo", ⟨"Ekubo", "AMM", 20, 10⟩)] := rfl
  refine ⟨rfl, ?_, by decide⟩
  simp only [generateRecommendations, hprot, List.flatMap_cons, List.flatMap_nil,
    protocolRecs, hmz, hme, hsel, List.isEmpty_cons, List.isEmpty_nil, Bool.false_eq_true,
    if_false, if_true, List.map_cons, List.map_nil, List.append_nil]
  simp [mkRecommendation, examplePoolZkPair]

/-!
## C7
-/

theorem negativeAmount_recs_length :
    (investmentStrategyRecommendations (Option.some lowStrategy) [examplePoolHighYield]
        exampleBullish (-1000)).length = 1 := by
  have hmz : matchingPools [examplePoolHighYield] "zkLend" = [examplePoolHighYield] := rfl
  have hme : matchingPools [examplePoolHighYield] "ekubo" = [] := rfl
  have hsel : selectedPoolsFor lowStrategy [examplePoolHighYield] "zkLend"
      = [examplePoolHighYield] := rfl
  have hprot : lowStrategy.protocols
      = [("zkLend", ⟨"zkLend", "LENDING", 80, 60⟩), ("ekubo", ⟨"Ekubo", "AMM", 20, 10⟩)] := rfl
  simp only [investmentStrategyRecommendations, generateRecommendations, hprot,
    List.flatMap_cons, List.flatMap_nil, protocolRecs, hmz, hme, hsel, List.isEmpty_cons,
    List.isEmpty_nil, Bool.false_eq_true, if_false, if_true, List.map_cons, List.map_nil,
    List.append_nil, List.length_cons, List.length_nil]

/-- C7 (amended): when no strategy config exists for the risk level the
provider surfaces an empty recommendation set, but totalAmount is not
validated anywhere: with totalAmount ≤ 0 and a matching pool the engine
still emits a (non-positive-amount) recommendation instead of an empty
set. -/
theorem claim_C7_invalid_input_handling :
    (∀ (pools : List Pool) (s : Sentiment) (tA : ℚ),
        investmentStrategyRecommendations Option.none pools s tA = []) ∧
      investmentStrategyRecommendations (Option.some lowStrategy) [examplePoolHighYield]
          exampleBullish (-1000) ≠ [] := by
  constructor
  · intro pools s tA
    rfl
  · intro hempty
    have := negativeAmount_recs_length
    rw [hempty] at this
    simp at this

/-- C7 counterexample: totalAmount = -1000 is an invalid allocation
input in the sense of the claim, yet the cycle emits one
recommendation rather than an empty set. -/
theorem claim_C7_counterexample :
    ((-1000 : ℚ) ≤ 0) ∧
      (investmentStrategyRecommendations (Option.some lowStrategy) [examplePoolHighYield]
          exampleBullish (-1000)).length = 1 ∧
      ¬ (investmentStrategyRecommendations (Option.some lowStrategy) [examplePoolHighYield]
          exampleBullish (-1000) = []) := by
  refine ⟨by norm_num, negativeAmount_recs_length, ?_⟩
  intro hempty
  have := negativeAmount_recs_length
  rw [hempty] at this
  simp at this

/-!
## C5
-/

/-- Four-level confidence labels used by the evaluators. -/
inductive ConfidenceLevel where
  | cnone
  | low
  | medium
  | high
deriving DecidableEq, Repr

/-- Aggregated historical performance of a protocol-token pair, as read
by the confidence calculation of the DeFi evaluator (the fields it does
not read are omitted). -/
structure HistoricalPerformance where
  successRate : ℚ
  averageReturn : ℚ
  totalRecommendations : ℚ
deriving DecidableEq, Repr

/-- Market sentiment label of the evaluator market context. -/
inductive SentimentLabel where
  | bearish
  | neutral
  | bullish
deriving DecidableEq, Repr

/-- Market context consumed by the evaluator confidence scoring. -/
structure MarketContext where
  overallSentiment : SentimentLabel
  volatilityIndex : ℚ
  trendStrength : ℚ
deriving DecidableEq, Repr

/-- The slice of a DeFi recommendation the confidence calculations
read: its expected return. -/
structure DeFiRec where
  expectedReturn : ℚ
deriving DecidableEq, Repr

/-- The sentiment lookup table of calculateMarketAlignmentScore. -/
def sentimentScoreOf : SentimentLabel → ℚ
  | SentimentLabel.bearish => 0.3
  | SentimentLabel.neutral => 0.5
  | SentimentLabel.bullish => 0.7

/-- calculateMarketAlignmentScore from the DeFi evaluator. -/
def calculateMarketAlignmentScore (mc : MarketContext) : ℚ :=
  (sentimentScoreOf mc.overallSentiment + (1 - mc.volatilityIndex / 100)
    + mc.trendStrength / 100) / 3

/-- The weighted confidence score of the DeFi evaluator (weights 0.3,
0.2, 0.2, 0.3 over success rate, return accuracy, recommendation count
and market alignment). -/
def defiConfidenceScore (h : HistoricalPerformance) (rec : DeFiRec) (mc : MarketContext) : ℚ :=
  let successScore := h.successRate
  let returnScore := max 0 (1 - |h.averageReturn - rec.expectedReturn| / h.averageReturn)
  let recommendationScore := min 1 (h.totalRecommendations / 20)
  let marketScore := calculateMarketAlignmentScore mc
  successScore * 0.3 + returnScore * 0.2 + recommendationScore * 0.2 + marketScore * 0.3

/-- The four-level threshold ladder as the claim words it: at least 0.8
high, at least 0.6 medium, at least 0.3 low, otherwise none. -/
def confidenceLadder (score : ℚ) : ConfidenceLevel :=
  if 0.8 ≤ score then ConfidenceLevel.high
  else if 0.6 ≤ score then ConfidenceLevel.medium
  else if 0.3 ≤ score then ConfidenceLevel.low
  else ConfidenceLevel.cnone

/-- calculateConfidence from the DeFi evaluator, line for line: none
when no history exists, otherwise the weighted score mapped through the
threshold ladder written inline in the source. -/
def defiCalculateConfidence (history : Option HistoricalPerformance) (rec : DeFiRec)
    (mc : MarketContext) : ConfidenceLevel :=
  match history with
  | Option.none => ConfidenceLevel.cnone
  | Option.some h =>
    let confidenceScore := defiConfidenceScore h rec mc
    if 0.8 ≤ confidenceScore then ConfidenceLevel.high
    else if 0.6 ≤ confidenceScore then ConfidenceLevel.medium
    else if 0.3 ≤ confidenceScore then ConfidenceLevel.low
    else ConfidenceLevel.cnone

/-- The weighted confidence score of the second evaluator variant
(weights 0.4, 0.3, 0.3 and a count divisor of 10). -/
def evaluatorConfidenceScore (h : HistoricalPerformance) (rec : DeFiRec) : ℚ :=
  let successScore := h.successRate
  let returnDiff := |h.averageReturn - rec.expectedReturn|
  let returnScore := max 0 (1 - returnDiff / h.averageReturn)
  let recommendationScore := min 1 (h.totalRecommendations / 10)
  successScore * 0.4 + returnScore * 0.3 + recommendationScore * 0.3

/-- calculateConfidence of the second evaluator variant, with the same
inline threshold ladder. -/
def evaluatorCalculateConfidence (h : HistoricalPerformance) (rec : DeFiRec) :
    ConfidenceLevel :=
  let confidenceScore := evaluatorConfidenceScore h rec
  if 0.8 ≤ confidenceScore then ConfidenceLevel.high
  else if 0.6 ≤ confidenceScore then ConfidenceLevel.medium
  else if 0.3 ≤ confidenceScore then ConfidenceLevel.low
  else ConfidenceLevel.cnone

/-- C5: both evaluator confidence functions are exactly the claimed
four-level threshold ladder applied to their weighted scores (with none
for absent history), and the ladder boundaries are exactly 0.8, 0.6 and
0.3 with closed lower ends. -/
theorem claim_C5_confidence_ladder :
    (∀ (h : HistoricalPerformance) (rec : DeFiRec) (mc : MarketContext),
        defiCalculateConfidence (Option.some h) rec mc
          = confidenceLadder (defiConfidenceScore h rec mc)) ∧
      (∀ (rec : DeFiRec) (mc : MarketContext),
        defiCalculateConfidence Option.none rec mc = ConfidenceLevel.cnone) ∧
      (∀ (h : HistoricalPerformance) (rec : DeFiRec),
        evaluatorCalculateConfidence h rec
          = confidenceLadder (evaluatorConfidenceScore h rec)) ∧
      (∀ score : ℚ,
        (confidenceLadder score = ConfidenceLevel.high ↔ 0.8 ≤ score) ∧
        (confidenceLadder score = ConfidenceLevel.medium ↔ 0.6 ≤ score ∧ score < 0.8) ∧
        (confidenceLadder score = ConfidenceLevel.low ↔ 0.3 ≤ score ∧ score < 0.6) ∧
        (confidenceLadder score = ConfidenceLevel.cnone ↔ score < 0.3)) := by
  refine ⟨fun h rec mc => rfl, fun rec mc => rfl, fun h rec => rfl, fun score => ?_⟩
  unfold confidenceLadder
  rcases lt_or_le score 0.3 with h3 | h3
  · rw [if_neg (by linarith), if_neg (by linarith), if_neg (by linarith)]
    refine ⟨⟨fun h => absurd h ?_, fun h => absurd h (by linarith)⟩,
      ⟨fun h => absurd h ?_, fun h => absurd h.1 (by linarith)⟩,
      ⟨fun h => absurd h ?_, fun h => absurd h.1 (by linarith)⟩,
      ⟨fun _ => h3, fun _ => rfl⟩⟩ <;> intro hc <;> cases hc
  · rcases lt_or_le score 0.6 with h6 | h6
    · rw [if_neg (by linarith), if_neg (by linarith), if_pos h3]
      refine ⟨⟨fun h => absurd h ?_, fun h => absurd h (by linarith)⟩,
        ⟨fun h => absurd h ?_, fun h => absurd h.2 (by linarith)⟩,
        ⟨fun _ => ⟨h3, h6⟩, fun _ => rfl⟩,
        ⟨fun h => absurd h ?_, fun h => absurd h (by linarith)⟩⟩ <;> intro hc <;> cases hc
    · rcases lt_or_le score 0.8 with h8 | h8
      · rw [if_neg (by linarith), if_pos h6]
        refine ⟨⟨fun h => absurd h ?_, fun h => absurd h (by linarith)⟩,
          ⟨fun _ => ⟨h6, h8⟩, fun _ => rfl⟩,
          ⟨fun h => absurd h ?_, fun h => absurd h.2 (by linarith)⟩,
          ⟨fun h => absurd h ?_, fun h => absurd h (by linarith)⟩⟩ <;> intro hc <;> cases hc
      · rw [if_pos h8]
        refine ⟨⟨fun _ => h8, fun _ => rfl⟩,
          ⟨fun h => absurd h ?_, fun h => absurd h.2 (by linarith)⟩,
          ⟨fun h => absurd h ?_, fun h => absurd h.2 (by linarith)⟩,
          ⟨fun h => absurd h ?_, fun h => absurd h (by linarith)⟩⟩ <;> intro hc <;> cases hc

/-!
## C9
-/

/-- The slice of a DeFi evaluator recommendation read by
calculatePortfolioMetrics for exposures and diversification: protocol,
token and amount (riskLevel, expectedReturn and confidence are not read
by those computations). -/
structure DeFiRecommendation where
  protocol : String
  token : String
  amount : ℚ
deriving DecidableEq, Repr

/-- totalValue of calculatePortfolioMetrics. -/
def totalValueOf (recs : List DeFiRecommendation) : ℚ :=
  (recs.map (fun r => r.amount)).sum

/-- The keys of an exposure record, in first-insertion order. -/
def exposureKeys (recs : List DeFiRecommendation) (key : DeFiRecommendation → String) :
    List String :=
  (recs.map key).dedup

/-- One exposure entry: the accumulated amount / totalValue over the
recommendations with this key. -/
def exposureOf (recs : List DeFiRecommendation) (key : DeFiRecommendation → String)
    (k : String) : ℚ :=
  ((recs.filter (fun r => key r == k)).map (fun r => r.amount / totalValueOf recs)).sum

/-- The Herfindahl-Hirschman index over one exposure record: the sum of
squared exposures. -/
def hhiOf (recs : List DeFiRecommendation) (key : DeFiRecommendation → String) : ℚ :=
  ((exposureKeys recs key).map (fun k => exposureOf recs key k ^ 2)).sum

/-- calculateDiversificationScore applied to the exposure records that
calculatePortfolioMetrics builds: the equally weighted average of the
protocol and token diversification (1 - HHI) scores. -/
def diversificationScoreOf (recs : List DeFiRecommendation) : ℚ :=
  let protocolHHI := hhiOf recs (fun r => r.protocol)
  let tokenHHI := hhiOf recs (fun r => r.token)
  let protocolDiversification := 1 - protocolHHI
  let tokenDiversification := 1 - tokenHHI
  (protocolDiversification + tokenDiversification) / 2

theorem sum_map_add_distrib {α : Type} (l : List α) (f g : α → ℚ) :
    (l.map (fun x => f x + g x)).sum = (l.map f).sum + (l.map g).sum := by
  induction l with
  | nil => simp
  | cons x t ih =>
    simp only [List.map_cons, List.sum_cons, ih]
    ring

theorem sum_map_div {α : Type} (l : List α) (f : α → ℚ) (T : ℚ) :
    (l.map (fun x => f x / T)).sum = (l.map f).sum / T := by
  induction l with
  | nil => simp
  | cons x t ih =>
    simp only [List.map_cons, List.sum_cons, ih]
    ring

theorem filter_sum_as_ite {α : Type} (l : List α) (p : α → Bool) (f : α → ℚ) :
    ((l.filter p).map f).sum = (l.map (fun x => if p x then f x else 0)).sum := by
  induction l with
  | nil => rfl
  | cons x t ih =>
    by_cases hx : p x
    · simp only [List.filter_cons, hx, if_true, List.map_cons, List.sum_cons, ih]
    · simp only [List.filter_cons, Bool.not_eq_true] at *
      simp [hx, ih]

theorem sum_ite_not_mem (K : List String) (a : String) (c : ℚ) (ha : a ∉ K) :
    (K.map (fun k => if a == k then c else 0)).sum = 0 := by
  induction K with
  | nil => rfl
  | cons k K' ih =>
    have hak : ¬ (a = k) := fun h => ha (h ▸ List.mem_cons_self k K')
    have hK' : a ∉ K' := fun h => ha (List.mem_cons_of_mem k h)
    simp only [List.map_cons, List.sum_cons, ih hK', add_zero]
    simp [hak]

theorem sum_ite_mem_nodup (K : List String) (a : String) (c : ℚ) (hnd : K.Nodup)
    (ha : a ∈ K) : (K.map (fun k => if a == k then c else 0)).sum = c := by
  induction K with
  | nil => cases ha
  | cons k K' ih =>
    rcases List.mem_cons.mp ha with rfl | haK'
    · have hK' : a ∉ K' := (List.nodup_cons.mp hnd).1
      simp only [List.map_cons, List.sum_cons, sum_ite_not_mem K' a c hK', add_zero]
      simp
    · have hak : ¬ (a = k) := by
        intro h
        subst h
        exact (List.nodup_cons.mp hnd).1 haK'
      simp only [List.map_cons, List.sum_cons]
      rw [ih (List.nodup_cons.mp hnd).2 haK']
      simp [hak]

theorem sum_grouped (K : List String) (l : List DeFiRecommendation)
    (g : DeFiRecommendation → String) (f : DeFiRecommendation → ℚ) (hnd : K.Nodup)
    (hmem : ∀ x ∈ l, g x ∈ K) :
    (K.map (fun k => (l.map (fun x => if g x == k then f x else 0)).sum)).sum
      = (l.map f).sum := by
  induction l with
  | nil => simp
  | cons x t ih =>
    simp only [List.map_cons, List.sum_cons]
    have hsplit : (K.map (fun k =>
        (if g x == k then f x else 0) + (t.map (fun y => if g y == k then f y else 0)).sum)).sum
        = (K.map (fun k => if g x == k then f x else 0)).sum
          + (K.map (fun k => (t.map (fun y => if g y == k then f y else 0)).sum)).sum :=
      sum_map_add_distrib K _ _
    rw [hsplit, sum_ite_mem_nodup K (g x) (f x) hnd (hmem x (List.mem_cons_self x t)),
      ih (fun y hy => hmem y (List.mem_cons_of_mem x hy))]

theorem single_le_sum_of_nonneg (K : List String) (f : String → ℚ)
    (h : ∀ k ∈ K, 0 ≤ f k) (a : String) (ha : a ∈ K) : f a ≤ (K.map f).sum := by
  induction K with
  | nil => cases ha
  | cons k K' ih =>
    simp only [List.map_cons, List.sum_cons]
    rcases List.mem_cons.mp ha with heq | haK'
    · rw [heq]
      have : 0 ≤ (K'.map f).sum :=
        List.sum_nonneg (by
          intro x hx
          rw [List.mem_map] at hx
          obtain ⟨y, hy, rfl⟩ := hx
          exact h y (List.mem_cons_of_mem k hy))
      linarith
    · have := ih (fun y hy => h y (List.mem_cons_of_mem k hy)) haK'
      have h0 : 0 ≤ f k := h k (List.mem_cons_self k K')
      linarith

theorem exposures_sum_to_one (recs : List DeFiRecommendation)
    (key : DeFiRecommendation → String) (hne : recs ≠ [])
    (hpos : ∀ r ∈ recs, 0 < r.amount) :
    ((exposureKeys recs key).map (exposureOf recs key)).sum = 1 := by
  have hT : 0 < totalValueOf recs := by
    apply List.sum_pos
    · intro a ha
      rw [List.mem_map] at ha
      obtain ⟨r, hr, rfl⟩ := ha
      exact hpos r hr
    · intro hmapnil
      exact hne (List.map_eq_nil_iff.mp hmapnil)
  have hstep : ∀ k, exposureOf recs key k
      = (recs.map (fun r => if key r == k then r.amount / totalValueOf recs else 0)).sum := by
    intro k
    exact filter_sum_as_ite recs (fun r => key r == k) _
  calc ((exposureKeys recs key).map (exposureOf recs key)).sum
      = ((exposureKeys recs key).map (fun k =>
          (recs.map (fun r => if key r == k then r.amount / totalValueOf recs else 0)).sum)).sum := by
        apply congrArg
        exact List.map_congr_left (fun k _ => hstep k)
    _ = (recs.map (fun r => r.amount / totalValueOf recs)).sum := by
        apply sum_grouped
        · exact List.nodup_dedup _
        · intro x hx
          rw [exposureKeys, List.mem_dedup]
          exact List.mem_map_of_mem key hx
    _ = (recs.map (fun r => r.amount)).sum / totalValueOf recs := sum_map_div recs _ _
    _ = 1 := div_self (ne_of_gt hT)

theorem exposure_nonneg (recs : List DeFiRecommendation) (key : DeFiRecommendation → String)
    (hpos : ∀ r ∈ recs, 0 < r.amount) (k : String) : 0 ≤ exposureOf recs key k := by
  have hTnonneg : 0 ≤ totalValueOf recs :=
    List.sum_nonneg (by
      intro a ha
      rw [List.mem_map] at ha
      obtain ⟨r, hr, rfl⟩ := ha
      exact le_of_lt (hpos r hr))
  apply List.sum_nonneg
  intro a ha
  rw [List.mem_map] at ha
  obtain ⟨r, hr, rfl⟩ := ha
  exact div_nonneg (le_of_lt (hpos r (List.mem_of_mem_filter hr))) hTnonneg

theorem hhi_between (recs : List DeFiRecommendation) (key : DeFiRecommendation → String)
    (hne : recs ≠ []) (hpos : ∀ r ∈ recs, 0 < r.amount) :
    0 ≤ hhiOf recs key ∧ hhiOf recs key ≤ 1 := by
  have hsum := exposures_sum_to_one recs key hne hpos
  have hnn : ∀ k ∈ exposureKeys recs key, 0 ≤ exposureOf recs key k :=
    fun k _ => exposure_nonneg recs key hpos k
  constructor
  · apply List.sum_nonneg
    intro a ha
    rw [List.mem_map] at ha
    obtain ⟨k, hk, rfl⟩ := ha
    exact sq_nonneg _
  · have hle : ∀ k ∈ exposureKeys recs key,
        exposureOf recs key k ^ 2 ≤ exposureOf recs key k := by
      intro k hk
      have h1 : exposureOf recs key k ≤ 1 := by
        have := single_le_sum_of_nonneg (exposureKeys recs key) (exposureOf recs key) hnn k hk
        rw [hsum] at this
        exact this
      have h0 := hnn k hk
      calc exposureOf recs key k ^ 2
          = exposureOf recs key k * exposureOf recs key k := sq (exposureOf recs key k)
        _ ≤ 1 * exposureOf recs key k := mul_le_mul_of_nonneg_right h1 h0
        _ = exposureOf recs key k := one_mul _
    calc hhiOf recs key
        ≤ ((exposureKeys recs key).map (exposureOf recs key)).sum := List.sum_le_sum hle
      _ = 1 := hsum

/-- C9: the diversification score equals 1 minus the average of the
protocol and token HHIs, and lies in [0, 1] for every nonempty
recommendation set with positive amounts. -/
theorem claim_C9_diversification_score (recs : List DeFiRecommendation) :
    (diversificationScoreOf recs
        = 1 - (hhiOf recs (fun r => r.protocol) + hhiOf recs (fun r => r.token)) / 2) ∧
      (recs ≠ [] → (∀ r ∈ recs, 0 < r.amount) →
        0 ≤ diversificationScoreOf recs ∧ diversificationScoreOf recs ≤ 1) := by
  constructor
  · simp only [diversificationScoreOf]
    ring
  · intro hne hpos
    have hp := hhi_between recs (fun r => r.protocol) hne hpos
    have ht := hhi_between recs (fun r => r.token) hne hpos
    simp only [diversificationScoreOf]
    constructor
    · linarith [hp.1, hp.2, ht.1, ht.2]
    · linarith [hp.1, hp.2, ht.1, ht.2]

/-- An example evaluator recommendation set with positive amounts. -/
def exampleEvalRecs : List DeFiRecommendation :=
  [{ protocol := "zkLend", token := "ETH", amount := 80 },
   { protocol := "Ekubo", token := "STRK", amount := 20 }]

/-- C9 witness: the two-recommendation example portfolio has a
diversification score inside [0, 1]. -/
theorem claim_C9_witness :
    0 ≤ diversificationScoreOf exampleEvalRecs
      ∧ diversificationScoreOf exampleEvalRecs ≤ 1 := by
  apply (claim_C9_diversification_score exampleEvalRecs).2
  · intro h
    simp [exampleEvalRecs] at h
  · intro r hr
    simp only [exampleEvalRecs, List.mem_cons, List.not_mem_nil, or_false] at hr
    rcases hr with hr | hr <;> rw [hr] <;> norm_num

/-!
## C8
-/

/-- The slice of a smart-contract position read by the rebalance check:
its protocol, pair tokens, USD value and the riskMetrics maxDrawdown
(flattened; the riskMetrics fields the check does not read are
omitted). -/
structure Position where
  protocol : String
  token0 : String
  token1 : String
  value : ℚ
  maxDrawdown : ℚ
deriving DecidableEq, Repr

/-- The riskManagement limits of the contract data consumed by
shouldRebalance. -/
structure RiskManagement where
  stopLoss : ℚ
  takeProfit : ℚ
  maxDrawdown : ℚ
  rebalanceThreshold : ℚ
  diversificationTarget : ℚ
deriving DecidableEq, Repr

/-- Math.max over a spread list.  On the empty list JavaScript yields
negative Infinity, which has no rational counterpart; every use below
is on a list fed by a nonempty position set. -/
def jsMaxList (l : List ℚ) : ℚ :=
  match l with
  | [] => 0
  | x :: xs => xs.foldl max x

/-- Portfolio total value, as summed by calculatePortfolioMetrics of
the smart-contract provider. -/
def positionsTotalValue (positions : List Position) : ℚ :=
  (positions.map (fun p => p.value)).sum

/-- Portfolio maximum drawdown: the largest per-position riskMetrics
maxDrawdown. -/
def portfolioMaxDrawdown (positions : List Position) : ℚ :=
  jsMaxList (positions.map (fun p => p.maxDrawdown))

/-- One protocol weight entry: accumulated value / totalValue over the
positions in that protocol. -/
def protocolWeightOf (positions : List Position) (total : ℚ) (prot : String) : ℚ :=
  ((positions.filter (fun p => p.protocol == prot)).map (fun p => p.value / total)).sum

/-- One token weight entry: each position contributes its weight under
both its token0 and its token1 key (twice under the same key if the two
coincide, as the source double set does). -/
def tokenWeightOf (positions : List Position) (total : ℚ) (t : String) : ℚ :=
  (positions.map (fun p =>
    (if p.token0 == t then p.value / total else 0)
      + (if p.token1 == t then p.value / total else 0))).sum

/-- The diversification score of the smart-contract provider: one minus
the largest protocol or token weight. -/
def scDiversificationScore (positions : List Position) : ℚ :=
  let total := positionsTotalValue positions
  let protocolWeights :=
    ((positions.map (fun p => p.protocol)).dedup).map (protocolWeightOf positions total)
  let tokenWeights :=
    ((positions.flatMap (fun p => [p.token0, p.token1])).dedup).map
      (tokenWeightOf positions total)
  1 - jsMaxList (protocolWeights ++ tokenWeights)

/-- getTargetWeights of the smart-contract provider. -/
def getTargetWeights : RiskLevel → List (String × ℚ)
  | RiskLevel.LOW => [("JEDISWAP", 0.3), ("MYSWAP", 0.3), ("ZKLEND", 0.4)]
  | RiskLevel.MEDIUM => [("JEDISWAP", 0.4), ("SITHSWAP", 0.3), ("NOSTRA", 0.3)]
  | RiskLevel.HIGH => [("JEDISWAP", 0.5), ("STARKSTARK", 0.3), ("SITHSWAP", 0.2)]

/-- The largest absolute drift of a current protocol weight from its
target weight, over the target keys (a missing current weight counts
as 0, which the filtered sum already yields). -/
def maxDriftOf (positions : List Position) (riskLevel : RiskLevel) : ℚ :=
  let total := positionsTotalValue positions
  jsMaxList ((getTargetWeights riskLevel).map
    (fun kv => |protocolWeightOf positions total kv.1 - kv.2|))

/-- shouldRebalance from the smart-contract provider: the three
conditions in source order as an if chain, with the reason string of
the first condition that holds. -/
def shouldRebalance (positions : List Position) (riskLevel : RiskLevel)
    (rm : RiskManagement) : Bool × String :=
  if rm.maxDrawdown < portfolioMaxDrawdown positions then
    (true, "Maximum drawdown exceeded")
  else if scDiversificationScore positions < rm.diversificationTarget then
    (true, "Portfolio diversification below target")
  else if rm.rebalanceThreshold < maxDriftOf positions riskLevel then
    (true, "Position weights drifted beyond threshold")
  else
    (false, "No rebalancing needed")

/-- C8: shouldRebalance is a pure function of the portfolio state and
configuration (so identical inputs give identical results), and its
result is characterized by the fixed short-circuit order drawdown,
then diversification, then drift, each reason naming the first
condition that holds. -/
theorem claim_C8_rebalance_order (positions : List Position) (riskLevel : RiskLevel)
    (rm : RiskManagement) :
    (rm.maxDrawdown < portfolioMaxDrawdown positions →
        shouldRebalance positions riskLevel rm = (true, "Maximum drawdown exceeded")) ∧
      (¬ rm.maxDrawdown < portfolioMaxDrawdown positions →
        scDiversificationScore positions < rm.diversificationTarget →
        shouldRebalance positions riskLevel rm
          = (true, "Portfolio diversification below target")) ∧
      (¬ rm.maxDrawdown < portfolioMaxDrawdown positions →
        ¬ scDiversificationScore positions < rm.diversificationTarget →
        rm.rebalanceThreshold < maxDriftOf positions riskLevel →
        shouldRebalance positions riskLevel rm
          = (true, "Position weights drifted beyond threshold")) ∧
      (¬ rm.maxDrawdown < portfolioMaxDrawdown positions →
        ¬ scDiversificationScore positions < rm.diversificationTarget →
        ¬ rm.rebalanceThreshold < maxDriftOf positions riskLevel →
        shouldRebalance positions riskLevel rm = (false, "No rebalancing needed")) := by
  refine ⟨?_, ?_, ?_, ?_⟩
  · intro h1
    simp only [shouldRebalance, if_pos h1]
  · intro h1 h2
    simp only [shouldRebalance, if_neg h1, if_pos h2]
  · intro h1 h2 h3
    simp only [shouldRebalance, if_neg h1, if_neg h2, if_pos h3]
  · intro h1 h2 h3
    simp only [shouldRebalance, if_neg h1, if_neg h2, if_neg h3]

/-- The mock position the smart-contract provider ships. -/
def examplePosition : Position :=
  { protocol := "JEDISWAP", token0 := "ETH", token1 := "USDC", value := 5000,
    maxDrawdown := 10 }

/-- The mock riskManagement limits the smart-contract provider ships. -/
def exampleRiskManagement : RiskManagement :=
  { stopLoss := 15, takeProfit := 50, maxDrawdown := 25, rebalanceThreshold := 0.1,
    diversificationTarget := 0.7 }

/-- C8 witness: on the shipped mock data the drawdown check passes and
the diversification check fires, so the reason names the second
condition. -/
theorem claim_C8_witness :
    shouldRebalance [examplePosition] RiskLevel.MEDIUM exampleRiskManagement
      = (true, "Portfolio diversification below target") := by
  have hdd : portfolioMaxDrawdown [examplePosition] = 10 := by
    norm_num [portfolioMaxDrawdown, jsMaxList, examplePosition]
  have hkeysP : ([examplePosition].map (fun p => p.protocol)).dedup = ["JEDISWAP"] := rfl
  have hkeysT : ([examplePosition].flatMap (fun p => [p.token0, p.token1])).dedup
      = ["ETH", "USDC"] := rfl
  have htotal : positionsTotalValue [examplePosition] = 5000 := by
    norm_num [positionsTotalValue, examplePosition]
  have hwP : protocolWeightOf [examplePosition] 5000 "JEDISWAP" = 1 := by
    norm_num [protocolWeightOf, examplePosition]
  have hwE : tokenWeightOf [examplePosition] 5000 "ETH" = 1 := by
    norm_num [tokenWeightOf, examplePosition]
    decide
  have hwU : tokenWeightOf [examplePosition] 5000 "USDC" = 1 := by
    norm_num [tokenWeightOf, examplePosition]
    decide
  have hdiv : scDiversificationScore [examplePosition] = 0 := by
    simp only [scDiversificationScore, htotal]
    rw [show ((([examplePosition].map (fun p => p.protocol)).dedup).map
          (protocolWeightOf [examplePosition] 5000)
        ++ (([examplePosition].flatMap (fun p => [p.token0, p.token1])).dedup).map
          (tokenWeightOf [examplePosition] 5000))
        = [protocolWeightOf [examplePosition] 5000 "JEDISWAP",
           tokenWeightOf [examplePosition] 5000 "ETH",
           tokenWeightOf [examplePosition] 5000 "USDC"] from rfl]
    rw [hwP, hwE, hwU]
    norm_num [jsMaxList, List.foldl_cons, List.foldl_nil]
  apply (claim_C8_rebalance_order [examplePosition] RiskLevel.MEDIUM
    exampleRiskManagement).2.1
  · rw [hdd]
    norm_num [exampleRiskManagement]
  · rw [hdiv]
    norm_num [exampleRiskManagement]

/-!
## C10
-/

/-- One token entry of the market data map, flattening the nested
technicalAnalysis object (macd.histogram and the two moving averages)
into the fields the sentiment calculation reads. -/
structure TokenMarketData where
  priceChange24h : ℚ
  volatility : ℚ
  volume24h : ℚ
  volume24h_previous : ℚ
  rsi : ℚ
  macdHistogram : ℚ
  sma20 : ℚ
  sma50 : ℚ
deriving DecidableEq, Repr

/-- Math.sign. -/
def jsSign (q : ℚ) : ℚ := if 0 < q then 1 else if q < 0 then -1 else 0

/-- Per-token priceAction contribution. -/
def priceActionOf (d : TokenMarketData) : ℚ := jsSign d.priceChange24h

/-- Per-token volatility contribution. -/
def volatilityFactorOf (d : TokenMarketData) : ℚ := if 30 < d.volatility then -1 else 1

/-- Per-token volume contribution. -/
def volumeFactorOf (d : TokenMarketData) : ℚ :=
  if d.volume24h_previous < d.volume24h then 1 else -1

/-- Per-token technicals contribution: the three technical signals. -/
def technicalsOf (d : TokenMarketData) : ℚ :=
  (if 70 < d.rsi ∨ d.rsi < 30 then -1 else 1)
    + (if 0 < d.macdHistogram then 1 else -1)
    + (if d.sma50 < d.sma20 then 1 else -1)

/-- The sentiment record returned by calculateMarketSentiment. -/
structure MarketSentiment where
  overall : ℚ
  priceAction : ℚ
  volatility : ℚ
  volume : ℚ
  technicals : ℚ
deriving DecidableEq, Repr

/-- calculateMarketSentiment from the portfolio manager provider: the
four factor accumulators over the token map values, normalized by the
token count (4 * count for the overall score, 3 * count for the
technicals factor). -/
def calculateMarketSentiment (l : List TokenMarketData) : MarketSentiment :=
  let priceAction := (l.map priceActionOf).sum
  let volatility := (l.map volatilityFactorOf).sum
  let volume := (l.map volumeFactorOf).sum
  let technicals := (l.map technicalsOf).sum
  let totalTokens : ℚ := l.length
  { overall := (priceAction + volatility + volume + technicals) / (4 * totalTokens)
    priceAction := priceAction / totalTokens
    volatility := volatility / totalTokens
    volume := volume / totalTokens
    technicals := technicals / (3 * totalTokens) }

/-- The total contribution of one token across the four factors. -/
def tokenSentimentSum (d : TokenMarketData) : ℚ :=
  priceActionOf d + volatilityFactorOf d + volumeFactorOf d + technicalsOf d

theorem tokenSentimentSum_bounds (d : TokenMarketData) :
    -6 ≤ tokenSentimentSum d ∧ tokenSentimentSum d ≤ 6 := by
  unfold tokenSentimentSum priceActionOf volatilityFactorOf volumeFactorOf technicalsOf jsSign
  split_ifs <;> norm_num

theorem sum_map_le_mul_length {α : Type} (l : List α) (f : α → ℚ) (c : ℚ)
    (h : ∀ x ∈ l, f x ≤ c) : (l.map f).sum ≤ c * l.length := by
  induction l with
  | nil => simp
  | cons x t ih =>
    simp only [List.map_cons, List.sum_cons, List.length_cons]
    have h1 := h x (List.mem_cons_self x t)
    have h2 := ih (fun y hy => h y (List.mem_cons_of_mem x hy))
    push_cast
    linarith

theorem mul_length_le_sum_map {α : Type} (l : List α) (f : α → ℚ) (c : ℚ)
    (h : ∀ x ∈ l, c ≤ f x) : c * l.length ≤ (l.map f).sum := by
  induction l with
  | nil => simp
  | cons x t ih =>
    simp only [List.map_cons, List.sum_cons, List.length_cons]
    have h1 := h x (List.mem_cons_self x t)
    have h2 := ih (fun y hy => h y (List.mem_cons_of_mem x hy))
    push_cast
    linarith

/-- A token entry on which every sentiment signal is positive. -/
def exampleBullishToken : TokenMarketData :=
  { priceChange24h := 5, volatility := 10, volume24h := 2, volume24h_previous := 1,
    rsi := 50, macdHistogram := 1, sma20 := 2, sma50 := 1 }

/-- C10: each token contributes a per-token sum in [-6, 6]; for every
nonempty market-data map the overall sentiment equals the sum of the
per-token sums over 4 times the token count and lies in [-3/2, 3/2];
and on the all-bullish single-token map it reaches exactly 3/2, which
exceeds 1 and pushes the marketAlignment mapping 0.5 + overall * 0.5 of
the confidence scoring above 1. -/
theorem claim_C10_sentiment_range :
    (∀ d : TokenMarketData, -6 ≤ tokenSentimentSum d ∧ tokenSentimentSum d ≤ 6) ∧
      (∀ l : List TokenMarketData, l ≠ [] →
        (calculateMarketSentiment l).overall
            = (l.map tokenSentimentSum).sum / (4 * l.length) ∧
          -(3 / 2) ≤ (calculateMarketSentiment l).overall ∧
          (calculateMarketSentiment l).overall ≤ 3 / 2) ∧
      ((calculateMarketSentiment [exampleBullishToken]).overall = 3 / 2 ∧
        (1 : ℚ) < (calculateMarketSentiment [exampleBullishToken]).overall ∧
        1 < 0.5 + (calculateMarketSentiment [exampleBullishToken]).overall * 0.5) := by
  have hoverall : ∀ l : List TokenMarketData,
      (calculateMarketSentiment l).overall
        = (l.map tokenSentimentSum).sum / (4 * l.length) := by
    intro l
    simp only [calculateMarketSentiment]
    congr 1
    rw [show List.map tokenSentimentSum l
        = List.map (fun d =>
            priceActionOf d + volatilityFactorOf d + volumeFactorOf d + technicalsOf d) l
        from rfl]
    rw [sum_map_add_distrib l
        (fun d => priceActionOf d + volatilityFactorOf d + volumeFactorOf d) technicalsOf,
      sum_map_add_distrib l (fun d => priceActionOf d + volatilityFactorOf d) volumeFactorOf,
      sum_map_add_distrib l priceActionOf volatilityFactorOf]
  have hexample : (calculateMarketSentiment [exampleBullishToken]).overall = 3 / 2 := by
    rw [hoverall]
    norm_num [tokenSentimentSum, priceActionOf, volatilityFactorOf, volumeFactorOf,
      technicalsOf, jsSign, exampleBullishToken]
  refine ⟨tokenSentimentSum_bounds, ?_, hexample, ?_, ?_⟩
  · intro l hl
    refine ⟨hoverall l, ?_, ?_⟩
    · rw [hoverall l]
      have hn : (1 : ℚ) ≤ l.length := by
        have := List.length_pos.mpr hl
        exact_mod_cast this
      have hpos : (0 : ℚ) < 4 * l.length := by linarith
      rw [le_div_iff₀ hpos]
      have := mul_length_le_sum_map l tokenSentimentSum (-6)
        (fun d _ => (tokenSentimentSum_bounds d).1)
      linarith
    · rw [hoverall l]
      have hn : (1 : ℚ) ≤ l.length := by
        have := List.length_pos.mpr hl
        exact_mod_cast this
      have hpos : (0 : ℚ) < 4 * l.length := by linarith
      rw [div_le_iff₀ hpos]
      have := sum_map_le_mul_length l tokenSentimentSum 6
        (fun d _ => (tokenSentimentSum_bounds d).2)
      linarith
  · rw [hexample]
    norm_num
  · rw [hexample]
    norm_num

/-- C10 witness: the bounds hold at the all-bullish single-token map,
where the overall sentiment is exactly 3/2. -/
theorem claim_C10_witness :
    -(3 / 2 : ℚ) ≤ (calculateMarketSentiment [exampleBullishToken]).overall ∧
      (calculateMarketSentiment [exampleBullishToken]).overall ≤ 3 / 2 := by
  have h := claim_C10_sentiment_range.2.1 [exampleBullishToken]
    (by simp)
  exact ⟨h.2.1, h.2.2⟩

/-- C7 witness: with no strategy config the provider returns the empty
recommendation set at a concrete input. -/
theorem claim_C7_witness :
    investmentStrategyRecommendations Option.none [examplePoolHighYield] exampleBullish 5
      = [] :=
  claim_C7_invalid_input_handling.1 [examplePoolHighYield] exampleBullish 5
